import Mathlib

/-!
Verification of the fact-enrichment service in `src/main.py`.

The embedding models the JSON values the program actually manipulates:
a fact record is a dict with optional string fields `name`, `content`,
`target_node_name`, an optional `metadata` dict whose `company` entry is a
string-to-string dict, plus arbitrary further string fields (`extra`).
Pipeline state is the dict passed between the two workflow nodes; absent
keys are `none`.  All functions are direct transcriptions of the Python
source; `%`-style truthiness of Python strings (empty string is falsy) is
made explicit.
-/

/-- Python substring test: does `hay` start with `pat`? (helper for `hasSub`). -/
def leadsWith : List Char → List Char → Bool
  | [], _ => true
  | _ :: _, [] => false
  | p :: ps, c :: cs => p == c && leadsWith ps cs

/-- Python substring test `pat in hay` on character lists. -/
def hasSub : List Char → List Char → Bool
  | pat, [] => pat.isEmpty
  | pat, c :: cs => leadsWith pat (c :: cs) || hasSub pat cs

/-- Python string containment `pat in hay`. -/
def pyIn (pat hay : String) : Bool := hasSub pat.toList hay.toList

/-- ASCII lower-casing of one character, as `str.lower` acts on the ASCII
strings the program compares (a structural reimplementation of
`Char.toLower`, which core defines through well-founded recursion on
strings). -/
def lowerChar (c : Char) : Char :=
  if 65 ≤ c.toNat ∧ c.toNat ≤ 90 then Char.ofNat (c.toNat + 32) else c

/-- Python `s.lower()` on ASCII strings. -/
def lowerStr (s : String) : String := ⟨s.data.map lowerChar⟩

/-- A Python dict with string keys and string values, in insertion order
(keys are distinct in any dict the program builds). -/
abbrev Dict := List (String × String)

/-- Python `d.get(k)` (returns `None` when the key is absent). -/
def dget (d : Dict) (k : String) : Option String := d.lookup k

/-- Python `d.get(k, dflt)`. -/
def dgetD (d : Dict) (k : String) (dflt : String) : String := (dget d k).getD dflt

/-- Python `a or b` where `a` is a string: an empty string is falsy. -/
def pyOrStr (a b : String) : String := if a = "" then b else a

/-- Python `a or b` where `a` is `d.get(k)`: `None` and `""` are falsy. -/
def pyOrOpt (a : Option String) (b : String) : String :=
  match a with
  | none => b
  | some s => if s = "" then b else s

/-- One fact record returned by the Zep API, as consumed by `enrich_facts`:
the three string fields the lookups read, the `company` entry of the
record's `metadata` dict (`none` when the record carries no company
metadata), and any remaining string-valued fields (`extra`). -/
structure FactRec where
  name : Option String := none
  content : Option String := none
  target_node_name : Option String := none
  company : Option Dict := none
  extra : List (String × String) := []
deriving DecidableEq

/-- Python `f.get(k)` on a fact record, for the string-valued keys
(the only ones `get_fact_value` is called with). -/
def FactRec.getField (f : FactRec) (k : String) : Option String :=
  if k = "name" then f.name
  else if k = "content" then f.content
  else if k = "target_node_name" then f.target_node_name
  else f.extra.lookup k

/-- The name test of `get_fact_value`:
`name_pattern.lower() in f.get("name", "").lower()`. -/
def matchesPat (p : String) (f : FactRec) : Bool :=
  pyIn (lowerStr p) (lowerStr (f.name.getD ""))

/-- The company-metadata extraction loop of `enrich_facts` (lines 112-118):
the `company` entry of the first fact that has one, `{}` otherwise. -/
def metadataOf (l : List FactRec) : Dict :=
  match l.find? (fun f => f.company.isSome) with
  | some f => f.company.getD []
  | none => []

/-- Python repr of a string (single quotes; the characters the program
compares against contain no quotes or escapes). -/
def quoteStr (s : String) : String := "\x27" ++ s ++ "\x27"

/-- Python repr of one `key: value` entry of a string dict. -/
def entryRepr (k v : String) : String := quoteStr k ++ ": " ++ quoteStr v

/-- Python `str` of a string-to-string dict. -/
def dictRepr (d : Dict) : String :=
  "\x7b" ++ String.intercalate ", " (d.map fun kv => entryRepr kv.1 kv.2) ++ "\x7d"

/-- The entries of the Python dict for one fact, in the field order of the
embedding (absent fields do not appear). -/
def factEntries (f : FactRec) : List String :=
  (match f.name with | some v => [entryRepr "name" v] | none => []) ++
  (match f.content with | some v => [entryRepr "content" v] | none => []) ++
  (match f.target_node_name with | some v => [entryRepr "target_node_name" v] | none => []) ++
  (match f.company with
   | some d => [quoteStr "metadata" ++ ": \x7b" ++ quoteStr "company" ++ ": " ++ dictRepr d ++ "\x7d"]
   | none => []) ++
  f.extra.map fun kv => entryRepr kv.1 kv.2

/-- Python `str` of one fact dict. -/
def factRepr (f : FactRec) : String :=
  "\x7b" ++ String.intercalate ", " (factEntries f) ++ "\x7d"

/-- Python `str(facts_list)`: the textual rendering scanned by the
`"mechanic" in str(facts_list).lower()` gates of `enrich_facts`. -/
def factsStr (l : List FactRec) : String :=
  "[" ++ String.intercalate ", " (l.map factRepr) ++ "]"

/-- One of the two textual gates:
`w in str(facts_list).lower()` (`w` is already lowercase at both call sites). -/
def gate (w : String) (l : List FactRec) : Bool := pyIn w (lowerStr (factsStr l))

/-- The candidate of `get_fact_value` for one name pattern and one field:
`next((f.get(field_pattern, "Unknown") for f in facts_list if
name_pattern.lower() in f.get("name", "").lower()), None)`. -/
def factCandidate (l : List FactRec) (p fp : String) : Option String :=
  (l.find? (matchesPat p)).map (fun f => (f.getField fp).getD "Unknown")

/-- The acceptability test `if value and value != "Unknown"` applied to a
candidate (`none` models Python `None`). -/
def acceptFact (o : Option String) : Option String :=
  match o with
  | none => none
  | some v => if v ≠ "" ∧ v ≠ "Unknown" then some v else none

/-- The fact-matching loops of `get_fact_value` (lines 122-130): the first
acceptable candidate over name patterns (outer) and fields (inner). -/
def factPhase (l : List FactRec) (nps fps : List String) : Option String :=
  nps.findSome? fun p => fps.findSome? fun fp => acceptFact (factCandidate l p fp)

/-- The metadata loop of `get_fact_value` (lines 133-137): the first
metadata entry whose key contains some pattern (case-insensitively) and
whose value is truthy and not the string "null". -/
def metaPhase (md : Dict) (nps : List String) : Option String :=
  md.findSome? fun kv =>
    if (nps.any fun p => pyIn (lowerStr p) (lowerStr kv.1)) ∧ kv.2 ≠ "" ∧ kv.2 ≠ "null"
    then some kv.2 else none

/-- The helper `get_fact_value` of `enrich_facts` (lines 120-139): facts
first, then the company metadata, then the default. -/
def get_fact_value (md : Dict) (l : List FactRec) (nps fps : List String) (dflt : String) : String :=
  match factPhase l nps fps with
  | some v => v
  | none =>
    match metaPhase md nps with
    | some v => v
    | none => dflt

/-- The `service_split` sub-object of the business summary. -/
structure ServiceSplit where
  mechanic : String
  towing : String
deriving DecidableEq

/-- The `services` sub-object of the business summary. -/
structure Services where
  type : String
  service_split : ServiceSplit
deriving DecidableEq

/-- The `contact` sub-object of the business summary. -/
structure Contact where
  owner : String
  email : String
  phone : String
deriving DecidableEq

/-- The `tow_truck` sub-object of the business summary. -/
structure TowTruck where
  model : String
  value : String
  operating_radius : String
deriving DecidableEq

/-- The `equipment` sub-object of the business summary. -/
structure Equipment where
  tow_truck : TowTruck
deriving DecidableEq

/-- The `business_info` object built by `enrich_facts` (lines 147-209). -/
structure Business where
  name : String
  industry : String
  revenue : String
  location : String
  services : Services
  contact : Contact
  equipment : Equipment
deriving DecidableEq

/-- The `business_info` dict literal of `enrich_facts` (lines 142-209),
with `md` the extracted company metadata and `l` the facts list. -/
def buildBusiness (md : Dict) (l : List FactRec) : Business :=
  { name := pyOrStr (dgetD md "company_name" "")
      (get_fact_value md l ["HAS_NAME", "COMPANY_NAME"] ["target_node_name", "content"] "Unknown"),
    industry := pyOrOpt (dget md "company_industry")
      (get_fact_value md l ["HAS_INDUSTRY", "INDUSTRY"] ["target_node_name", "content"] "Unknown"),
    revenue := pyOrOpt (dget md "company_annual_revenue_usd")
      (get_fact_value md l ["HAS_ANNUAL_REVENUE", "REVENUE"] ["content", "target_node_name"] "Unknown"),
    location := pyOrOpt (dget md "company_city")
      (get_fact_value md l ["IS_LOCATED_AT", "LOCATION", "ADDRESS"] ["content", "target_node_name"] "Unknown"),
    services :=
      { type := pyOrOpt (dget md "company_sub_contractor_costs_info")
          (get_fact_value md l ["HAS_BUSINESS_TYPE", "BUSINESS_TYPE"] ["content", "target_node_name"] "Unknown"),
        service_split :=
          { mechanic := if gate "mechanic" l
              then get_fact_value md l ["COMPRISES", "SERVICE_SPLIT"] ["content"] "Unknown"
              else "Unknown",
            towing := if gate "towing" l
              then get_fact_value md l ["COMPRISES", "SERVICE_SPLIT"] ["content"] "Unknown"
              else "Unknown" } },
    contact :=
      { owner := pyOrStr (dgetD md "contact_first_name" "" ++ " " ++ dgetD md "contact_last_name" "")
          (get_fact_value md l ["HAS_CONTACT_ROLE", "OWNER"] ["content", "target_node_name"] "Unknown"),
        email := pyOrOpt (dget md "contact_primary_email")
          (pyOrOpt (dget md "company_primary_email")
            (get_fact_value md l ["HAS_EMAIL", "EMAIL"] ["target_node_name", "content"] "Unknown")),
        phone := pyOrOpt (dget md "contact_primary_phone")
          (pyOrOpt (dget md "company_primary_phone")
            (get_fact_value md l ["HAS_PHONE", "PHONE"] ["target_node_name", "content"] "Unknown")) },
    equipment :=
      { tow_truck :=
          { model := get_fact_value md l ["TOW_TRUCK", "VEHICLE"] ["content", "target_node_name"] "Unknown",
            value := pyOrOpt (dget md "company_vehicle_value")
              (get_fact_value md l ["HAS_VALUE", "VEHICLE_VALUE"] ["target_node_name", "content"] "Unknown"),
            operating_radius := pyOrOpt (dget md "company_operating_radius")
              (get_fact_value md l ["HAS_OPERATING_RADIUS", "RADIUS"] ["target_node_name", "content"] "Unknown") } } }

/-- The pipeline state dict passed between the two workflow nodes.  Keys
that the program may leave out are `Option`s.  `facts` models the value of
the state's "facts" key: `some o` when the key is present, where `o` is
the "facts" entry of the fetched JSON (`none` when that inner key is
absent).  The enriched output stores the bare list under the same key;
the embedding keeps it in the same slot. -/
structure State where
  user_id : Option String := none
  status : Option String := none
  error : Option String := none
  timestamp : Option String := none
  facts : Option (Option (List FactRec)) := none
  business_summary : Option Business := none
  fact_count : Option Nat := none
  processed_at : Option String := none
deriving DecidableEq

/-- `state.get("facts", {}).get("facts", [])` (line 111). -/
def factsListOf (state : State) : List FactRec :=
  match state.facts with
  | some (some l) => l
  | _ => []

/-- `enrich_facts` (lines 106-217).  `now` stands for `datetime.now().isoformat()`. -/
def enrich_facts (now : String) (state : State) : State :=
  if state.status ≠ some "success" then state
  else
    { status := some "success",
      business_summary := some (buildBusiness (metadataOf (factsListOf state)) (factsListOf state)),
      facts := some (some (factsListOf state)),
      fact_count := some (factsListOf state).length,
      processed_at := some now }

/-- `process_user_facts` (lines 87-104).  The HTTP fetch is abstracted as a
function from user id to either the response JSON (its optional "facts"
list) or an error message. -/
def process_user_facts (fetch : String → Except String (Option (List FactRec)))
    (now : String) (state : State) : State :=
  match fetch (state.user_id.getD "") with
  | .ok facts =>
    { facts := some facts,
      user_id := some (state.user_id.getD ""),
      status := some "success",
      timestamp := some now }
  | .error e =>
    { user_id := some (state.user_id.getD ""),
      status := some "error",
      error := some e,
      timestamp := some now }

/-- The workflow graph data built by `create_workflow` (lines 219-234). -/
structure GraphDef where
  nodes : List (String × (State → State))
  edges : List (String × String)
  entry : String
  finish : String

/-- `create_workflow` (lines 219-234): two nodes, one edge, entry at
`query_facts`, finish at `enrich_facts`. -/
def create_workflow (fetch : String → Except String (Option (List FactRec)))
    (now : String) : GraphDef :=
  { nodes := [("query_facts", process_user_facts fetch now), ("enrich_facts", enrich_facts now)],
    edges := [("query_facts", "enrich_facts")],
    entry := "query_facts",
    finish := "enrich_facts" }

/-- `workflow.compile()`: the library returns a runnable view of the same
graph; the graph data is unchanged. -/
def GraphDef.compile (g : GraphDef) : GraphDef := g

/-- Modelled from the spec: the generic graph-execution engine (the
third-party `langgraph` library, not part of this repository) runs the
wired nodes sequentially, "two sequential function calls wired through a
generic graph-execution library": run the current node, stop at the finish
node, otherwise follow the unique outgoing edge.  Fuel bounds the walk. -/
def runFrom (g : GraphDef) : Nat → String → State → State
  | 0, _, s => s
  | Nat.succ fuel, n, s =>
    let s2 := ((g.nodes.lookup n).getD id) s
    if n = g.finish then s2
    else
      match g.edges.lookup n with
      | some m => runFrom g fuel m s2
      | none => s2

/-- `workflow.ainvoke(input)`: execute from the entry node. -/
def graphInvoke (g : GraphDef) (s : State) : State :=
  runFrom g g.nodes.length g.entry s

/-- The input dict `{"user_id": str(user_id)}` of `workflow.ainvoke` (line 277). -/
def initState (uid : String) : State := { user_id := some uid }

/-- JSON-shaped values, used to state the shape of the business summary. -/
inductive JVal where
  | s (v : String)
  | obj (fields : List (String × JVal))

/-- The business summary rendered as the JSON object the dict literal of
`enrich_facts` denotes. -/
def Business.toJson (b : Business) : JVal :=
  .obj [("name", .s b.name), ("industry", .s b.industry), ("revenue", .s b.revenue),
        ("location", .s b.location),
        ("services", .obj [("type", .s b.services.type),
          ("service_split", .obj [("mechanic", .s b.services.service_split.mechanic),
            ("towing", .s b.services.service_split.towing)])]),
        ("contact", .obj [("owner", .s b.contact.owner), ("email", .s b.contact.email),
          ("phone", .s b.contact.phone)]),
        ("equipment", .obj [("tow_truck", .obj [("model", .s b.equipment.tow_truck.model),
          ("value", .s b.equipment.tow_truck.value),
          ("operating_radius", .s b.equipment.tow_truck.operating_radius)])])]

/-- Every name pattern `enrich_facts` ever passes to `get_fact_value`. -/
def allNamePatterns : List String :=
  ["HAS_NAME", "COMPANY_NAME", "HAS_INDUSTRY", "INDUSTRY", "HAS_ANNUAL_REVENUE", "REVENUE",
   "IS_LOCATED_AT", "LOCATION", "ADDRESS", "HAS_BUSINESS_TYPE", "BUSINESS_TYPE",
   "COMPRISES", "SERVICE_SPLIT", "HAS_CONTACT_ROLE", "OWNER", "HAS_EMAIL", "EMAIL",
   "HAS_PHONE", "PHONE", "TOW_TRUCK", "VEHICLE", "HAS_VALUE", "VEHICLE_VALUE",
   "HAS_OPERATING_RADIUS", "RADIUS"]

/-- A successful `find?` splits its list at the first hit: every element
before the hit fails the predicate. -/
theorem find?_first_split {α : Type} {p : α → Bool} {l : List α} {a : α}
    (h : l.find? p = some a) :
    ∃ pre post, l = pre ++ a :: post ∧ p a = true ∧ ∀ x ∈ pre, p x = false := by
  induction l with
  | nil => simp [List.find?] at h
  | cons x xs ih =>
    rw [List.find?_cons] at h
    cases hx : p x with
    | true =>
      rw [hx] at h
      obtain rfl : x = a := by simpa using h
      exact ⟨[], xs, rfl, hx, by simp⟩
    | false =>
      rw [hx] at h
      obtain ⟨pre, post, rfl, hpa, hpre⟩ := ih h
      refine ⟨x :: pre, post, rfl, hpa, ?_⟩
      intro y hy
      rcases List.mem_cons.mp hy with rfl | hy
      · exact hx
      · exact hpre y hy

/-- An accepted candidate was present and passed the truthiness test. -/
theorem acceptFact_eq_some {o : Option String} {v : String} (h : acceptFact o = some v) :
    o = some v ∧ v ≠ "" ∧ v ≠ "Unknown" := by
  cases o with
  | none => simp [acceptFact] at h
  | some w =>
    by_cases hc : w ≠ "" ∧ w ≠ "Unknown"
    · rw [acceptFact, if_pos hc] at h
      obtain rfl : w = v := by simpa using h
      exact ⟨rfl, hc⟩
    · rw [acceptFact, if_neg hc] at h
      simp at h

/-- A value produced by the fact-matching loops comes from an acceptable
candidate for some pattern and some field, in loop order. -/
theorem factPhase_eq_some {l : List FactRec} {nps fps : List String} {v : String}
    (h : factPhase l nps fps = some v) :
    ∃ p ∈ nps, ∃ fp ∈ fps, factCandidate l p fp = some v ∧ v ≠ "" ∧ v ≠ "Unknown" := by
  obtain ⟨p, hp, h2⟩ := List.exists_of_findSome?_eq_some h
  obtain ⟨fp, hfp, h3⟩ := List.exists_of_findSome?_eq_some h2
  obtain ⟨ho, hv⟩ := acceptFact_eq_some h3
  exact ⟨p, hp, fp, hfp, ho, hv⟩

/-- A candidate value is the requested field of the first fact in list
order whose name matches the pattern. -/
theorem factCandidate_eq_some {l : List FactRec} {p fp v : String}
    (h : factCandidate l p fp = some v) :
    ∃ pre post f, l = pre ++ f :: post ∧ matchesPat p f = true ∧
      (∀ g ∈ pre, matchesPat p g = false) ∧ (f.getField fp).getD "Unknown" = v := by
  unfold factCandidate at h
  cases hf : l.find? (matchesPat p) with
  | none => rw [hf] at h; simp at h
  | some f =>
    rw [hf, Option.map_some'] at h
    obtain ⟨pre, post, hl, hm, hpre⟩ := find?_first_split hf
    exact ⟨pre, post, f, hl, hm, hpre, by simpa using h⟩

/-- When no fact name matches any of the patterns, the fact phase yields
nothing. -/
theorem factPhase_eq_none_of_no_match {l : List FactRec} {nps fps : List String}
    (h : ∀ p ∈ nps, ∀ f ∈ l, matchesPat p f = false) :
    factPhase l nps fps = none := by
  rw [factPhase, List.findSome?_eq_none_iff]
  intro p hp
  rw [List.findSome?_eq_none_iff]
  intro fp _
  have hfind : l.find? (matchesPat p) = none :=
    List.find?_eq_none.mpr (by intro f hf; simp [h p hp f hf])
  simp [factCandidate, hfind, acceptFact]

/-- When the fact phase finds a value, `get_fact_value` returns it. -/
theorem gfv_of_factPhase {md : Dict} {l : List FactRec} {nps fps : List String}
    {dflt v : String} (h : factPhase l nps fps = some v) :
    get_fact_value md l nps fps dflt = v := by
  unfold get_fact_value
  rw [h]

/-- When no metadata key contains any of the patterns, the metadata loop
yields nothing. -/
theorem metaPhase_eq_none_of_no_key_match {md : Dict} {nps : List String}
    (h : ∀ kv ∈ md, ∀ p ∈ nps, pyIn (lowerStr p) (lowerStr kv.1) = false) :
    metaPhase md nps = none := by
  rw [metaPhase, List.findSome?_eq_none_iff]
  intro kv hkv
  have hcond : ¬((nps.any fun p => pyIn (lowerStr p) (lowerStr kv.1)) ∧
      kv.2 ≠ "" ∧ kv.2 ≠ "null") := by
    intro hc
    obtain ⟨h1, _⟩ := hc
    rw [List.any_eq_true] at h1
    obtain ⟨p, hp, hpy⟩ := h1
    rw [h kv hkv p hp] at hpy
    simp at hpy
  rw [if_neg hcond]

/-- With no matching fact name and no pattern-matching metadata key,
`get_fact_value` returns its default. -/
theorem gfv_default_of_no_match (md : Dict) (l : List FactRec) (nps fps : List String)
    (dflt : String)
    (hnm : ∀ p ∈ nps, ∀ f ∈ l, matchesPat p f = false)
    (hmk : ∀ kv ∈ md, ∀ p ∈ nps, pyIn (lowerStr p) (lowerStr kv.1) = false) :
    get_fact_value md l nps fps dflt = dflt := by
  unfold get_fact_value
  rw [factPhase_eq_none_of_no_match hnm, metaPhase_eq_none_of_no_key_match hmk]

/-- On a success state, `enrich_facts` returns the fresh five-key dict of
lines 211-217. -/
theorem enrich_success (now : String) (s : State) (hs : s.status = some "success") :
    enrich_facts now s =
      { status := some "success",
        business_summary := some (buildBusiness (metadataOf (factsListOf s)) (factsListOf s)),
        facts := some (some (factsListOf s)),
        fact_count := some (factsListOf s).length,
        processed_at := some now } := by
  unfold enrich_facts
  rw [hs]
  simp

/-- `metadataOf` through `Option.map`, for congruence reasoning. -/
theorem metadataOf_eq (l : List FactRec) :
    metadataOf l = ((l.find? (fun f => f.company.isSome)).map (fun f => f.company.getD [])).getD [] := by
  cases h : l.find? (fun f => f.company.isSome) <;> simp [metadataOf, h]

/-- A fact without company metadata is skipped by the extraction loop. -/
theorem metadataOf_cons_none {g : FactRec} {l : List FactRec} (hg : g.company = none) :
    metadataOf (g :: l) = metadataOf l := by
  simp [metadataOf, List.find?_cons, hg]

/-- The four fields of a fact record named by the spec glossary:
`name`, `content`, `target_node_name` and the (company) metadata. -/
def proj (f : FactRec) : Option String × Option String × Option String × Option Dict :=
  (f.name, f.content, f.target_node_name, f.company)

theorem name_eq_of_proj {f g : FactRec} (h : proj f = proj g) : f.name = g.name :=
  congrArg (fun x => x.1) h

theorem content_eq_of_proj {f g : FactRec} (h : proj f = proj g) : f.content = g.content :=
  congrArg (fun x => x.2.1) h

theorem tnn_eq_of_proj {f g : FactRec} (h : proj f = proj g) :
    f.target_node_name = g.target_node_name :=
  congrArg (fun x => x.2.2.1) h

theorem company_eq_of_proj {f g : FactRec} (h : proj f = proj g) : f.company = g.company :=
  congrArg (fun x => x.2.2.2) h

/-- The name-pattern test reads only the `name` field. -/
theorem matchesPat_proj {p : String} {f g : FactRec} (h : proj f = proj g) :
    matchesPat p f = matchesPat p g := by
  unfold matchesPat
  rw [name_eq_of_proj h]

theorem getField_name (f : FactRec) : f.getField "name" = f.name := rfl

theorem getField_content (f : FactRec) : f.getField "content" = f.content := rfl

theorem getField_tnn (f : FactRec) : f.getField "target_node_name" = f.target_node_name := rfl

/-- `find?` composed with an observation is stable under replacing the
list by one with the same `proj` images, provided both the predicate and
the observation only read `proj`. -/
theorem find?_map_congr {α : Type} (q : FactRec → Bool) (r : FactRec → α)
    (hq : ∀ f g, proj f = proj g → q f = q g)
    (hr : ∀ f g, proj f = proj g → r f = r g)
    {l₁ l₂ : List FactRec} (h : l₁.map proj = l₂.map proj) :
    (l₁.find? q).map r = (l₂.find? q).map r := by
  induction l₁ generalizing l₂ with
  | nil =>
    cases l₂ with
    | nil => rfl
    | cons b bs => simp at h
  | cons a as ih =>
    cases l₂ with
    | nil => simp at h
    | cons b bs =>
      simp only [List.map_cons, List.cons.injEq] at h
      obtain ⟨hab, hrest⟩ := h
      rw [List.find?_cons, List.find?_cons, hq a b hab]
      cases hb : q b with
      | true => simpa using hr a b hab
      | false => exact ih hrest

/-- The extracted company metadata reads only the `company` fields. -/
theorem metadataOf_congr {l₁ l₂ : List FactRec} (h : l₁.map proj = l₂.map proj) :
    metadataOf l₁ = metadataOf l₂ := by
  rw [metadataOf_eq, metadataOf_eq]
  rw [find?_map_congr (fun f => f.company.isSome) (fun f => f.company.getD [])
    (fun f g hfg => by show f.company.isSome = g.company.isSome; rw [company_eq_of_proj hfg])
    (fun f g hfg => by show f.company.getD [] = g.company.getD []; rw [company_eq_of_proj hfg]) h]

/-- A candidate lookup reads only the glossary fields of the records. -/
theorem factCandidate_congr {p fp : String}
    (hfp : fp = "name" ∨ fp = "content" ∨ fp = "target_node_name")
    {l₁ l₂ : List FactRec} (h : l₁.map proj = l₂.map proj) :
    factCandidate l₁ p fp = factCandidate l₂ p fp := by
  unfold factCandidate
  refine find?_map_congr (matchesPat p) (fun f => (f.getField fp).getD "Unknown")
    (fun f g hfg => matchesPat_proj hfg) (fun f g hfg => ?_) h
  show (f.getField fp).getD "Unknown" = (g.getField fp).getD "Unknown"
  rcases hfp with rfl | rfl | rfl
  · rw [getField_name, getField_name, name_eq_of_proj hfg]
  · rw [getField_content, getField_content, content_eq_of_proj hfg]
  · rw [getField_tnn, getField_tnn, tnn_eq_of_proj hfg]

/-- `findSome?` only evaluates its function on members of the list. -/
theorem findSome?_congr_mem {α β : Type} {f g : α → Option β} {l : List α}
    (h : ∀ a ∈ l, f a = g a) : l.findSome? f = l.findSome? g := by
  induction l with
  | nil => rfl
  | cons x xs ih =>
    rw [List.findSome?_cons, List.findSome?_cons, h x (by simp)]
    cases g x with
    | some b => rfl
    | none => exact ih (fun a ha => h a (List.mem_cons_of_mem x ha))

/-- The fact phase reads only the glossary fields of the records. -/
theorem factPhase_congr {nps fps : List String}
    (hfps : ∀ fp ∈ fps, fp = "name" ∨ fp = "content" ∨ fp = "target_node_name")
    {l₁ l₂ : List FactRec} (h : l₁.map proj = l₂.map proj) :
    factPhase l₁ nps fps = factPhase l₂ nps fps := by
  unfold factPhase
  refine findSome?_congr_mem (fun p _ => ?_)
  refine findSome?_congr_mem (fun fp hfp => ?_)
  rw [factCandidate_congr (hfps fp hfp) h]

/-- `get_fact_value` over the same metadata reads only the glossary
fields of the records. -/
theorem gfv_congr (md : Dict) (nps fps : List String) (dflt : String)
    (hfps : ∀ fp ∈ fps, fp = "name" ∨ fp = "content" ∨ fp = "target_node_name")
    {l₁ l₂ : List FactRec} (h : l₁.map proj = l₂.map proj) :
    get_fact_value md l₁ nps fps dflt = get_fact_value md l₂ nps fps dflt := by
  unfold get_fact_value
  rw [factPhase_congr hfps h]

/-- The business object reads the fact list only through the glossary
fields and the two textual gates. -/
theorem buildBusiness_congr {l₁ l₂ : List FactRec}
    (h : l₁.map proj = l₂.map proj)
    (hm : gate "mechanic" l₁ = gate "mechanic" l₂)
    (ht : gate "towing" l₁ = gate "towing" l₂) :
    buildBusiness (metadataOf l₁) l₁ = buildBusiness (metadataOf l₂) l₂ := by
  unfold buildBusiness
  rw [metadataOf_congr h, hm, ht]
  rw [gfv_congr (metadataOf l₂) ["HAS_NAME", "COMPANY_NAME"] ["target_node_name", "content"] "Unknown" (by decide) h]
  rw [gfv_congr (metadataOf l₂) ["HAS_INDUSTRY", "INDUSTRY"] ["target_node_name", "content"] "Unknown" (by decide) h]
  rw [gfv_congr (metadataOf l₂) ["HAS_ANNUAL_REVENUE", "REVENUE"] ["content", "target_node_name"] "Unknown" (by decide) h]
  rw [gfv_congr (metadataOf l₂) ["IS_LOCATED_AT", "LOCATION", "ADDRESS"] ["content", "target_node_name"] "Unknown" (by decide) h]
  rw [gfv_congr (metadataOf l₂) ["HAS_BUSINESS_TYPE", "BUSINESS_TYPE"] ["content", "target_node_name"] "Unknown" (by decide) h]
  rw [gfv_congr (metadataOf l₂) ["COMPRISES", "SERVICE_SPLIT"] ["content"] "Unknown" (by decide) h]
  rw [gfv_congr (metadataOf l₂) ["HAS_CONTACT_ROLE", "OWNER"] ["content", "target_node_name"] "Unknown" (by decide) h]
  rw [gfv_congr (metadataOf l₂) ["HAS_EMAIL", "EMAIL"] ["target_node_name", "content"] "Unknown" (by decide) h]
  rw [gfv_congr (metadataOf l₂) ["HAS_PHONE", "PHONE"] ["target_node_name", "content"] "Unknown" (by decide) h]
  rw [gfv_congr (metadataOf l₂) ["TOW_TRUCK", "VEHICLE"] ["content", "target_node_name"] "Unknown" (by decide) h]
  rw [gfv_congr (metadataOf l₂) ["HAS_VALUE", "VEHICLE_VALUE"] ["target_node_name", "content"] "Unknown" (by decide) h]
  rw [gfv_congr (metadataOf l₂) ["HAS_OPERATING_RADIUS", "RADIUS"] ["target_node_name", "content"] "Unknown" (by decide) h]

/-- A concrete fact matching the industry patterns while also carrying
company metadata with the key `company_industry`. -/
def industryFact : FactRec :=
  { name := some "HAS_INDUSTRY", content := some "Plumbing",
    company := some [("company_industry", "Metals")] }

/-- A concrete success state holding only `industryFact`. -/
def industryState : State :=
  { status := some "success", facts := some (some [industryFact]) }

/-- C1 (amended): within the helper `get_fact_value` the fact-pattern
matching comes first, and the company metadata dictionary is consulted
only when no pattern/field combination yields an acceptable value from
the fact records: whenever the fact phase produces a value, the helper
returns it for every metadata dictionary.  (As originally stated the
claim is false: most top-level attributes consult a dedicated company
metadata key before any fact record, see the counterexample.) -/
theorem metadata_is_fallback_within_helper (facts : List FactRec) (nps fps : List String)
    (dflt v : String) (h : factPhase facts nps fps = some v) (md : Dict) :
    get_fact_value md facts nps fps dflt = v :=
  gfv_of_factPhase h

/-- Witness for C1: a concrete fact-phase hit is returned unchanged even
though the metadata dictionary has a matching key. -/
theorem metadata_is_fallback_within_helper_witness :
    get_fact_value [("company_industry", "Metals")] [industryFact]
      ["HAS_INDUSTRY", "INDUSTRY"] ["target_node_name", "content"] "Unknown" = "Plumbing" :=
  metadata_is_fallback_within_helper [industryFact]
    ["HAS_INDUSTRY", "INDUSTRY"] ["target_node_name", "content"] "Unknown" "Plumbing" rfl
    [("company_industry", "Metals")]

/-- Counterexample to C1 as stated: on a success state whose single fact
matches the industry patterns with content "Plumbing", the industry
attribute is nevertheless resolved from the company metadata dictionary
("Metals"), so the fact records are not consulted first. -/
theorem metadata_precedes_facts_cx :
    ((enrich_facts "t" industryState).business_summary).map (fun b => b.industry) =
      some "Metals" ∧
    factPhase [industryFact] ["HAS_INDUSTRY", "INDUSTRY"] ["target_node_name", "content"] =
      some "Plumbing" ∧
    ("Metals" : String) ≠ "Plumbing" :=
  ⟨rfl, rfl, by decide⟩

/-- C2: a value picked from the fact list is the requested field of the
first fact in list order whose name contains the successful name pattern
(case-insensitively); no fact before it matches that pattern, so no later
matching fact is ever the source of the value for that pattern. -/
theorem fact_value_from_first_matching_fact (md : Dict) (facts : List FactRec)
    (nps fps : List String) (dflt v : String) (h : factPhase facts nps fps = some v) :
    get_fact_value md facts nps fps dflt = v ∧
    ∃ p ∈ nps, ∃ fp ∈ fps, ∃ pre post f, facts = pre ++ f :: post ∧
      matchesPat p f = true ∧ (∀ g ∈ pre, matchesPat p g = false) ∧
      (f.getField fp).getD "Unknown" = v := by
  refine ⟨gfv_of_factPhase h, ?_⟩
  obtain ⟨p, hp, fp, hfp, hc, _, _⟩ := factPhase_eq_some h
  obtain ⟨pre, post, f, hl, hm, hpre, hv⟩ := factCandidate_eq_some hc
  exact ⟨p, hp, fp, hfp, pre, post, f, hl, hm, hpre, hv⟩

/-- Two concrete name facts; only the first may supply the name value. -/
def twoNameFacts : List FactRec :=
  [{ name := some "HAS_NAME", target_node_name := some "Acme Towing" },
   { name := some "HAS_NAME", target_node_name := some "Bravo Towing" }]

/-- Witness for C2 at a concrete two-fact list: the value comes from the
first matching fact, not the second. -/
theorem fact_value_from_first_matching_fact_witness :
    get_fact_value [] twoNameFacts ["HAS_NAME"] ["target_node_name"] "Unknown" =
      "Acme Towing" ∧
    ∃ p ∈ ["HAS_NAME"], ∃ fp ∈ ["target_node_name"], ∃ pre post f,
      twoNameFacts = pre ++ f :: post ∧
      matchesPat p f = true ∧ (∀ g ∈ pre, matchesPat p g = false) ∧
      (f.getField fp).getD "Unknown" = "Acme Towing" :=
  fact_value_from_first_matching_fact [] twoNameFacts
    ["HAS_NAME"] ["target_node_name"] "Unknown" "Acme Towing" rfl

/-- C8: a state whose status key is absent or different from "success" is
returned unchanged by `enrich_facts`. -/
theorem non_success_passthrough (now : String) (s : State) (h : s.status ≠ some "success") :
    enrich_facts now s = s := by
  unfold enrich_facts
  rw [if_pos h]

/-- Witness for C8 on a concrete error state. -/
theorem non_success_passthrough_witness :
    enrich_facts "t" { status := some "error", error := some "boom" } =
      { status := some "error", error := some "boom" } :=
  non_success_passthrough "t" { status := some "error", error := some "boom" } (by decide)

/-- C3: on every success state the business summary is an object with
exactly the top-level keys name, industry, revenue, location, services,
contact and equipment, and the fixed nested subfields, regardless of
which facts or metadata are present. -/
theorem business_summary_fixed_shape (now : String) (s : State)
    (hs : s.status = some "success") :
    ∃ n i r lo ty me tw ow em ph mo va ra : String,
      ((enrich_facts now s).business_summary).map Business.toJson =
        some (JVal.obj [("name", .s n), ("industry", .s i), ("revenue", .s r),
          ("location", .s lo),
          ("services", .obj [("type", .s ty),
            ("service_split", .obj [("mechanic", .s me), ("towing", .s tw)])]),
          ("contact", .obj [("owner", .s ow), ("email", .s em), ("phone", .s ph)]),
          ("equipment", .obj [("tow_truck", .obj [("model", .s mo), ("value", .s va),
            ("operating_radius", .s ra)])])]) := by
  rw [enrich_success now s hs]
  exact ⟨_, _, _, _, _, _, _, _, _, _, _, _, _, rfl⟩

/-- Witness for C3 on a concrete success state with no facts key. -/
theorem business_summary_fixed_shape_witness :
    ∃ n i r lo ty me tw ow em ph mo va ra : String,
      ((enrich_facts "t" { status := some "success" }).business_summary).map Business.toJson =
        some (JVal.obj [("name", .s n), ("industry", .s i), ("revenue", .s r),
          ("location", .s lo),
          ("services", .obj [("type", .s ty),
            ("service_split", .obj [("mechanic", .s me), ("towing", .s tw)])]),
          ("contact", .obj [("owner", .s ow), ("email", .s em), ("phone", .s ph)]),
          ("equipment", .obj [("tow_truck", .obj [("model", .s mo), ("value", .s va),
            ("operating_radius", .s ra)])])]) :=
  business_summary_fixed_shape "t" { status := some "success" } rfl

/-- C4: invoking the compiled two-node workflow on the input dict
`{"user_id": uid}` equals the sequential composition of the two stage
functions, for every fetch outcome. -/
theorem workflow_equals_two_step_composition
    (fetch : String → Except String (Option (List FactRec))) (now uid : String) :
    graphInvoke ((create_workflow fetch now).compile) (initState uid) =
      enrich_facts now (process_user_facts fetch now (initState uid)) := rfl

/-- C9: on every success state the owner attribute is the space-joined
concatenation of the metadata values `contact_first_name` and
`contact_last_name` (never the fact-pattern fallback, whose condition can
never trigger because the concatenation contains a space); when both keys
are absent it is the one-character string " ". -/
theorem owner_is_metadata_concat (now : String) (s : State) (hs : s.status = some "success") :
    ((enrich_facts now s).business_summary).map (fun b => b.contact.owner) =
      some (dgetD (metadataOf (factsListOf s)) "contact_first_name" "" ++ " " ++
            dgetD (metadataOf (factsListOf s)) "contact_last_name" "") ∧
    (dget (metadataOf (factsListOf s)) "contact_first_name" = none →
     dget (metadataOf (factsListOf s)) "contact_last_name" = none →
     ((enrich_facts now s).business_summary).map (fun b => b.contact.owner) = some " ") := by
  have key : ∀ a b : String, a ++ " " ++ b ≠ "" := by
    intro a b hcon
    have hlen := congrArg String.length hcon
    rw [String.length_append, String.length_append] at hlen
    have h1 : (" " : String).length = 1 := rfl
    rw [h1, String.length_empty] at hlen
    omega
  have main : ((enrich_facts now s).business_summary).map (fun b => b.contact.owner) =
      some (dgetD (metadataOf (factsListOf s)) "contact_first_name" "" ++ " " ++
            dgetD (metadataOf (factsListOf s)) "contact_last_name" "") := by
    rw [enrich_success now s hs]
    simp only [Option.map_some']
    refine congrArg some ?_
    show pyOrStr _ _ = _
    rw [pyOrStr, if_neg (key _ _)]
  refine ⟨main, fun h1 h2 => ?_⟩
  rw [main]
  unfold dgetD
  rw [h1, h2]
  rfl

/-- Witness for C9 on a concrete success state with no facts. -/
theorem owner_is_metadata_concat_witness :
    ((enrich_facts "t" { status := some "success" }).business_summary).map
        (fun b => b.contact.owner) =
      some (dgetD (metadataOf (factsListOf { status := some "success" })) "contact_first_name" ""
        ++ " " ++
        dgetD (metadataOf (factsListOf { status := some "success" })) "contact_last_name" "") ∧
    (dget (metadataOf (factsListOf { status := some "success" })) "contact_first_name" = none →
     dget (metadataOf (factsListOf { status := some "success" })) "contact_last_name" = none →
     ((enrich_facts "t" { status := some "success" }).business_summary).map
        (fun b => b.contact.owner) = some " ") :=
  owner_is_metadata_concat "t" { status := some "success" } rfl

/-- The all-defaults business object: every attribute "Unknown" except
the owner, which is the space-joined pair of absent metadata names. -/
def unknownBusiness : Business :=
  { name := "Unknown"
    industry := "Unknown"
    revenue := "Unknown"
    location := "Unknown"
    services :=
      { type := "Unknown"
        service_split :=
          { mechanic := "Unknown"
            towing := "Unknown" } }
    contact :=
      { owner := " "
        email := "Unknown"
        phone := "Unknown" }
    equipment :=
      { tow_truck :=
          { model := "Unknown"
            value := "Unknown"
            operating_radius := "Unknown" } } }

/-- The dedicated company-metadata keys each attribute consults directly
before calling the helper (the `metadata.get(...)` prefixes of
lines 142-209). -/
def directMetadataKeys : List String :=
  ["company_name", "company_industry", "company_annual_revenue_usd", "company_city",
   "company_sub_contractor_costs_info", "contact_first_name", "contact_last_name",
   "contact_primary_email", "company_primary_email", "contact_primary_phone",
   "company_primary_phone", "company_vehicle_value", "company_operating_radius"]

/-- C5 (amended): `enrich_facts` is total in the embedding, and on every
success state in which no fact name contains any used name pattern, no
company-metadata key contains any name pattern (case-insensitively), and
the metadata lacks the dedicated directly-consulted keys, every
business-summary attribute is the default string "Unknown" — except
`contact.owner`, which is the space-joined concatenation of two absent
metadata values, i.e. the one-character string " ".  (As originally
stated the claim is false in two ways, see the counterexample: the owner
attribute never defaults to "Unknown", and a dedicated key such as
`company_city`, which contains no name pattern, still resolves its
attribute directly.) -/
theorem no_match_all_defaults (now : String) (s : State)
    (hs : s.status = some "success")
    (hnm : ∀ p ∈ allNamePatterns, ∀ f ∈ factsListOf s, matchesPat p f = false)
    (hmk : ∀ kv ∈ metadataOf (factsListOf s), ∀ p ∈ allNamePatterns,
      pyIn (lowerStr p) (lowerStr kv.1) = false)
    (hdk : ∀ k ∈ directMetadataKeys, dget (metadataOf (factsListOf s)) k = none) :
    (enrich_facts now s).business_summary = some
      unknownBusiness := by
  rw [enrich_success now s hs]
  have hg : ∀ nps fps dflt, (∀ p ∈ nps, p ∈ allNamePatterns) →
      get_fact_value (metadataOf (factsListOf s)) (factsListOf s) nps fps dflt = dflt := by
    intro nps fps dflt hsub
    exact gfv_default_of_no_match (metadataOf (factsListOf s)) (factsListOf s) nps fps dflt
      (fun p hp f hf => hnm p (hsub p hp) f hf)
      (fun kv hkv p hp => hmk kv hkv p (hsub p hp))
  unfold buildBusiness
  rw [hg ["HAS_NAME", "COMPANY_NAME"] ["target_node_name", "content"] "Unknown" (by decide)]
  rw [hg ["HAS_INDUSTRY", "INDUSTRY"] ["target_node_name", "content"] "Unknown" (by decide)]
  rw [hg ["HAS_ANNUAL_REVENUE", "REVENUE"] ["content", "target_node_name"] "Unknown" (by decide)]
  rw [hg ["IS_LOCATED_AT", "LOCATION", "ADDRESS"] ["content", "target_node_name"] "Unknown" (by decide)]
  rw [hg ["HAS_BUSINESS_TYPE", "BUSINESS_TYPE"] ["content", "target_node_name"] "Unknown" (by decide)]
  rw [hg ["COMPRISES", "SERVICE_SPLIT"] ["content"] "Unknown" (by decide)]
  rw [hg ["HAS_CONTACT_ROLE", "OWNER"] ["content", "target_node_name"] "Unknown" (by decide)]
  rw [hg ["HAS_EMAIL", "EMAIL"] ["target_node_name", "content"] "Unknown" (by decide)]
  rw [hg ["HAS_PHONE", "PHONE"] ["target_node_name", "content"] "Unknown" (by decide)]
  rw [hg ["TOW_TRUCK", "VEHICLE"] ["content", "target_node_name"] "Unknown" (by decide)]
  rw [hg ["HAS_VALUE", "VEHICLE_VALUE"] ["target_node_name", "content"] "Unknown" (by decide)]
  rw [hg ["HAS_OPERATING_RADIUS", "RADIUS"] ["target_node_name", "content"] "Unknown" (by decide)]
  simp only [dgetD]
  rw [hdk "company_name" (by decide)]
  rw [hdk "company_industry" (by decide)]
  rw [hdk "company_annual_revenue_usd" (by decide)]
  rw [hdk "company_city" (by decide)]
  rw [hdk "company_sub_contractor_costs_info" (by decide)]
  rw [hdk "contact_first_name" (by decide)]
  rw [hdk "contact_last_name" (by decide)]
  rw [hdk "contact_primary_email" (by decide)]
  rw [hdk "company_primary_email" (by decide)]
  rw [hdk "contact_primary_phone" (by decide)]
  rw [hdk "company_primary_phone" (by decide)]
  rw [hdk "company_vehicle_value" (by decide)]
  rw [hdk "company_operating_radius" (by decide)]
  simp only [ite_self]
  rfl

/-- A concrete success state with an empty facts list. -/
def emptyFactsState : State := { status := some "success", facts := some (some []) }

/-- Witness for C5 on the empty facts list. -/
theorem no_match_all_defaults_witness :
    (enrich_facts "t" emptyFactsState).business_summary = some
      unknownBusiness :=
  no_match_all_defaults "t" emptyFactsState rfl
    (by intro p hp f hf; simp [factsListOf, emptyFactsState] at hf)
    (by
      intro kv hkv p hp
      rw [show metadataOf (factsListOf emptyFactsState) = [] from rfl] at hkv
      simp at hkv)
    (by decide)

/-- A fact whose name matches no pattern and whose company metadata has
the single key `company_city`, which contains no name pattern either. -/
def cityOnlyFact : FactRec :=
  { name := some "X", company := some [("company_city", "Austin")] }

/-- Success state holding only `cityOnlyFact`. -/
def cityOnlyState : State :=
  { status := some "success", facts := some (some [cityOnlyFact]) }

/-- Counterexample to C5 as stated, in both of its failure modes: on the
empty facts list (nothing matches) the owner attribute is " ", not
"Unknown"; and on `cityOnlyState` — where no fact name matches any name
pattern and no metadata key contains any name pattern — the location
attribute is "Austin", not "Unknown", because the dedicated key
`company_city` is consulted directly. -/
theorem defaults_not_unknown_cx :
    (((enrich_facts "t" emptyFactsState).business_summary).map (fun b => b.contact.owner) =
      some " " ∧
     (" " : String) ≠ "Unknown") ∧
    ((∀ p ∈ allNamePatterns, ∀ f ∈ [cityOnlyFact], matchesPat p f = false) ∧
     (∀ kv ∈ metadataOf [cityOnlyFact], ∀ p ∈ allNamePatterns,
       pyIn (lowerStr p) (lowerStr kv.1) = false) ∧
     ((enrich_facts "t" cityOnlyState).business_summary).map (fun b => b.location) =
       some "Austin" ∧
     ("Austin" : String) ≠ "Unknown") :=
  ⟨⟨rfl, by decide⟩, by decide, by decide, rfl, by decide⟩

/-- The concrete tow-truck fact: free text in `content`. -/
def towTruckFact : FactRec :=
  { name := some "HAS_TOW_TRUCK", content := some "a 2019 Ford F-450 wrecker with winch" }

/-- A concrete success state holding only `towTruckFact`. -/
def towTruckState : State := { status := some "success", facts := some (some [towTruckFact]) }

/-- C6 (amended): the `equipment.tow_truck.model` attribute is produced by
the same multi-pattern lookup as every other attribute: whenever the fact
phase for the patterns TOW_TRUCK/VEHICLE over the fields
content/target_node_name yields a value, the model attribute is exactly
that value — the whole stored field, copied verbatim; no parsing of a
model out of the free text takes place.  (As originally stated the claim
is false, see the counterexample.) -/
theorem truck_model_is_verbatim_field (now : String) (s : State) (v : String)
    (hs : s.status = some "success")
    (h : factPhase (factsListOf s) ["TOW_TRUCK", "VEHICLE"] ["content", "target_node_name"] =
      some v) :
    ((enrich_facts now s).business_summary).map (fun b => b.equipment.tow_truck.model) =
      some v := by
  rw [enrich_success now s hs]
  simp only [Option.map_some']
  refine congrArg some ?_
  show get_fact_value _ _ _ _ _ = v
  exact gfv_of_factPhase h

/-- Witness for C6: the model attribute of the concrete tow-truck state is
the entire content field. -/
theorem truck_model_is_verbatim_field_witness :
    ((enrich_facts "t" towTruckState).business_summary).map
        (fun b => b.equipment.tow_truck.model) =
      some "a 2019 Ford F-450 wrecker with winch" :=
  truck_model_is_verbatim_field "t" towTruckState "a 2019 Ford F-450 wrecker with winch" rfl rfl

/-- Counterexample to C6 as stated: the model attribute equals the whole
free-text content field of the matching fact verbatim; no substring is
parsed out of it. -/
theorem truck_model_no_parsing_cx :
    ((enrich_facts "t" towTruckState).business_summary).map
        (fun b => b.equipment.tow_truck.model) =
      some "a 2019 Ford F-450 wrecker with winch" ∧
    towTruckFact.content = some "a 2019 Ford F-450 wrecker with winch" :=
  ⟨rfl, rfl⟩

/-- C7 (amended): the business summary depends on the fact records only
through the four glossary fields (name, content, target_node_name,
company metadata) and through the two textual mechanic/towing gates over
`str(facts_list)`: two success states whose fact lists agree on the four
fields of every record and on both gates produce equal summaries.  (As
originally stated, without the gate condition, the claim is false: the
gates scan the rendering of all fields, see the counterexample.) -/
theorem summary_reads_only_glossary_fields_and_gates (now : String) (s₁ s₂ : State)
    (hs₁ : s₁.status = some "success") (hs₂ : s₂.status = some "success")
    (hp : (factsListOf s₁).map proj = (factsListOf s₂).map proj)
    (hm : gate "mechanic" (factsListOf s₁) = gate "mechanic" (factsListOf s₂))
    (ht : gate "towing" (factsListOf s₁) = gate "towing" (factsListOf s₂)) :
    (enrich_facts now s₁).business_summary = (enrich_facts now s₂).business_summary := by
  rw [enrich_success now s₁ hs₁, enrich_success now s₂ hs₂]
  exact congrArg some (buildBusiness_congr hp hm ht)

/-- A success state whose single fact has a harmless extra field. -/
def extraNoteState : State :=
  { status := some "success",
    facts := some (some [{ name := some "HAS_NAME", target_node_name := some "Acme", extra := [("note", "x")] }]) }

/-- The same state without the extra field. -/
def plainNoteState : State :=
  { status := some "success",
    facts := some (some [{ name := some "HAS_NAME", target_node_name := some "Acme" }]) }

/-- Witness for C7: dropping an extra field that neither gate sees leaves
the summary unchanged. -/
theorem summary_reads_only_glossary_fields_and_gates_witness :
    (enrich_facts "t" extraNoteState).business_summary =
      (enrich_facts "t" plainNoteState).business_summary :=
  summary_reads_only_glossary_fields_and_gates "t" extraNoteState plainNoteState
    rfl rfl rfl rfl rfl

/-- A COMPRISES fact with an extra field containing the word mechanic. -/
def comprisesExtraFact : FactRec :=
  { name := some "COMPRISES", content := some "60/40 split", extra := [("note", "mechanic")] }

/-- The same fact without the extra field. -/
def comprisesPlainFact : FactRec :=
  { name := some "COMPRISES", content := some "60/40 split" }

/-- Success state holding `comprisesExtraFact`. -/
def comprisesExtraState : State :=
  { status := some "success", facts := some (some [comprisesExtraFact]) }

/-- Success state holding `comprisesPlainFact`. -/
def comprisesPlainState : State :=
  { status := some "success", facts := some (some [comprisesPlainFact]) }

/-- Counterexample to C7 as stated: the two fact lists agree on all four
glossary fields of their single record, yet the summaries differ, because
the word "mechanic" inside an extra field opens the textual gate. -/
theorem extra_fields_affect_summary_cx :
    ([comprisesExtraFact].map proj = [comprisesPlainFact].map proj) ∧
    (enrich_facts "t" comprisesExtraState).business_summary ≠
      (enrich_facts "t" comprisesPlainState).business_summary :=
  ⟨rfl, by decide⟩

/-- C10 (amended): the metadata dictionary used for the lookups is the
company entry of the first fact in list order that has one (and `{}` when
no fact does): facts after that first carrier, whatever their company
metadata, never change the extracted dictionary.  (The original second
half of the claim — that later facts' company metadata has no effect on
the business summary at all — is false, because the textual gates scan
the whole rendering, see the counterexample.) -/
theorem metadata_from_first_company_fact (pre : List FactRec) (f : FactRec)
    (rest : List FactRec) (d : Dict)
    (hpre : ∀ g ∈ pre, g.company = none) (hf : f.company = some d) :
    metadataOf (pre ++ f :: rest) = d ∧ metadataOf pre = [] := by
  constructor
  · induction pre with
    | nil => simp [metadataOf, List.find?_cons, hf]
    | cons g gs ih =>
      have hg : g.company = none := hpre g (List.mem_cons_self g gs)
      rw [List.cons_append, metadataOf_cons_none hg]
      exact ih (fun x hx => hpre x (List.mem_cons_of_mem g hx))
  · have hnone : pre.find? (fun x => x.company.isSome) = none :=
      List.find?_eq_none.mpr (fun x hx => by simp [hpre x hx])
    simp [metadataOf, hnone]

/-- A fact carrying the company metadata dict. -/
def companyLeadFact : FactRec :=
  { name := some "HAS_NAME", company := some [("company_city", "Austin")] }

/-- Witness for C10: the dictionary comes from the first carrier; the
trailing fact is irrelevant to it. -/
theorem metadata_from_first_company_fact_witness :
    metadataOf ([] ++ companyLeadFact :: [towTruckFact]) = [("company_city", "Austin")] ∧
    metadataOf [] = [] :=
  metadata_from_first_company_fact [] companyLeadFact [towTruckFact]
    [("company_city", "Austin")] (by simp) rfl

/-- A first fact whose metadata carries an empty company dict. -/
def emptyCompanyFact : FactRec :=
  { name := some "HAS_NAME", content := some "Acme", company := some [] }

/-- A later COMPRISES fact whose company metadata mentions mechanic. -/
def laterCompanyFactA : FactRec :=
  { name := some "COMPRISES", content := some "60/40 split", company := some [("note", "mechanic")] }

/-- The same later fact without company metadata. -/
def laterCompanyFactB : FactRec :=
  { name := some "COMPRISES", content := some "60/40 split" }

/-- Success state holding the pair with company metadata on the later fact. -/
def laterCompanyStateA : State :=
  { status := some "success", facts := some (some [emptyCompanyFact, laterCompanyFactA]) }

/-- Success state holding the pair without it. -/
def laterCompanyStateB : State :=
  { status := some "success", facts := some (some [emptyCompanyFact, laterCompanyFactB]) }

/-- Counterexample to C10 as stated: both lists select the same metadata
dictionary (the first carrier's empty dict) and differ only in the later
fact's company metadata, yet the business summaries differ. -/
theorem later_company_affects_summary_cx :
    metadataOf [emptyCompanyFact, laterCompanyFactA] =
      metadataOf [emptyCompanyFact, laterCompanyFactB] ∧
    ([emptyCompanyFact, laterCompanyFactA].map
        (fun f => FactRec.mk f.name f.content f.target_node_name none f.extra) =
      [emptyCompanyFact, laterCompanyFactB].map
        (fun f => FactRec.mk f.name f.content f.target_node_name none f.extra)) ∧
    (enrich_facts "t" laterCompanyStateA).business_summary ≠
      (enrich_facts "t" laterCompanyStateB).business_summary :=
  ⟨rfl, rfl, by decide⟩
